import Mathlib

/-!
Verification of the dublyo/mcp-gateway gateway core against its
natural-language specification.

Shallow embedding conventions:
* Go byte strings that are hashed (pepper, presented credentials) are
  `List Nat` with entries meant as bytes; Go strings that are only stored
  and compared (hex hashes, identifiers, domains) are Lean `String`.
* `time.Time` instants are `Int` (seconds); `time.Minute` is `60`.
* The RFC3339 expiry string of a connection is embedded as the result of
  Go's `time.Parse`: `Option Int`, `none` covering both the empty string
  and an unparseable one.
* Go `int32` counters are embedded as `Int` with explicit two's-complement
  wrap-around where the code increments without a guard.
-/

namespace McpGateway

/-! ## SHA-256 (crypto/sha256) over byte lists, and hex encoding (encoding/hex) -/

/-- Truncate to a 32-bit word. -/
def w32 (n : Nat) : Nat := n % 4294967296

/-- Rotate a 32-bit word right by `n` bits. -/
def rotr32 (x n : Nat) : Nat := w32 ((x >>> n) ||| (x <<< (32 - n)))

def bsig0 (x : Nat) : Nat := rotr32 x 2 ^^^ rotr32 x 13 ^^^ rotr32 x 22

def bsig1 (x : Nat) : Nat := rotr32 x 6 ^^^ rotr32 x 11 ^^^ rotr32 x 25

def ssig0 (x : Nat) : Nat := rotr32 x 7 ^^^ rotr32 x 18 ^^^ (x >>> 3)

def ssig1 (x : Nat) : Nat := rotr32 x 17 ^^^ rotr32 x 19 ^^^ (x >>> 10)

def chf (x y z : Nat) : Nat := (x &&& y) ^^^ ((x ^^^ 4294967295) &&& z)

def majf (x y z : Nat) : Nat := (x &&& y) ^^^ (x &&& z) ^^^ (y &&& z)

/-- The SHA-256 round constants. -/
def sha256K : List Nat :=
  [1116352408, 1899447441, 3049323471, 3921009573,
   961987163, 1508970993, 2453635748, 2870763221,
   3624381080, 310598401, 607225278, 1426881987,
   1925078388, 2162078206, 2614888103, 3248222580,
   3835390401, 4022224774, 264347078, 604807628,
   770255983, 1249150122, 1555081692, 1996064986,
   2554220882, 2821834349, 2952996808, 3210313671,
   3336571891, 3584528711, 113926993, 338241895,
   666307205, 773529912, 1294757372, 1396182291,
   1695183700, 1986661051, 2177026350, 2456956037,
   2730485921, 2820302411, 3259730800, 3345764771,
   3516065817, 3600352804, 4094571909, 275423344,
   430227734, 506948616, 659060556, 883997877,
   958139571, 1322822218, 1537002063, 1747873779,
   1955562222, 2024104815, 2227730452, 2361852424,
   2428436474, 2756734187, 3204031479, 3329325298]

/-- The eight 32-bit words of SHA-256 chaining state. -/
structure Hash8 where
  a : Nat
  b : Nat
  c : Nat
  d : Nat
  e : Nat
  f : Nat
  g : Nat
  h : Nat
  deriving DecidableEq, Repr

def sha256Init : Hash8 :=
  ⟨1779033703, 3144134277, 1013904242, 2773480762,
   1359893119, 2600822924, 528734635, 1541459225⟩

/-- One step of the message-schedule extension: append word `W[t]` computed
from `W[t-16]`, `W[t-15]`, `W[t-7]`, `W[t-2]`. -/
def schedStep (ws : List Nat) : List Nat :=
  let n := ws.length
  let w16 := ws.getD (n - 16) 0
  let w15 := ws.getD (n - 15) 0
  let w7 := ws.getD (n - 7) 0
  let w2 := ws.getD (n - 2) 0
  ws ++ [w32 (ssig1 w2 + w7 + ssig0 w15 + w16)]

def sched : Nat → List Nat → List Nat
  | 0, ws => ws
  | n + 1, ws => sched n (schedStep ws)

/-- One compression round; `kw` is `K[t] + W[t]` (mod 2^32). -/
def compressRound (s : Hash8) (kw : Nat) : Hash8 :=
  let t1 := w32 (s.h + bsig1 s.e + chf s.e s.f s.g + kw)
  let t2 := w32 (bsig0 s.a + majf s.a s.b s.c)
  ⟨w32 (t1 + t2), s.a, s.b, s.c, w32 (s.d + t1), s.e, s.f, s.g⟩

/-- Compress one 16-word block into the chaining state. -/
def compressBlock (s : Hash8) (block : List Nat) : Hash8 :=
  let ws := sched 48 block
  let s2 := (ws.zip sha256K).foldl (fun st p => compressRound st (w32 (p.1 + p.2))) s
  ⟨w32 (s.a + s2.a), w32 (s.b + s2.b), w32 (s.c + s2.c), w32 (s.d + s2.d),
   w32 (s.e + s2.e), w32 (s.f + s2.f), w32 (s.g + s2.g), w32 (s.h + s2.h)⟩

/-- Fold the compression function over a word stream, 16 words at a time. -/
def compressAll (s : Hash8) : List Nat → Hash8
  | w0 :: w1 :: w2 :: w3 :: w4 :: w5 :: w6 :: w7 :: w8 :: w9 ::
    w10 :: w11 :: w12 :: w13 :: w14 :: w15 :: rest =>
      compressAll (compressBlock s [w0, w1, w2, w3, w4, w5, w6, w7,
                                    w8, w9, w10, w11, w12, w13, w14, w15]) rest
  | _ => s

/-- `k` big-endian bytes of `n`. -/
def natToBytesBE : Nat → Nat → List Nat
  | 0, _ => []
  | k + 1, n => natToBytesBE k (n / 256) ++ [n % 256]

/-- Group bytes into big-endian 32-bit words (discarding a trailing partial group;
padding always makes the length a multiple of 4). -/
def bytesToWords : List Nat → List Nat
  | b0 :: b1 :: b2 :: b3 :: rest => (((b0 * 256 + b1) * 256 + b2) * 256 + b3) :: bytesToWords rest
  | _ => []

/-- SHA-256 padding: `0x80`, zeros to 56 mod 64, then the 64-bit big-endian bit length. -/
def sha256Pad (msg : List Nat) : List Nat :=
  let len := msg.length
  let zeros := (119 - len % 64) % 64
  msg ++ [128] ++ List.replicate zeros 0 ++ natToBytesBE 8 (8 * len)

/-- SHA-256 of a byte list, as 32 bytes. -/
def sha256 (msg : List Nat) : List Nat :=
  let s := compressAll sha256Init (bytesToWords (sha256Pad msg))
  ([s.a, s.b, s.c, s.d, s.e, s.f, s.g, s.h].map (natToBytesBE 4)).flatten

def hexDigit (n : Nat) : Char := if n < 10 then Char.ofNat (48 + n) else Char.ofNat (87 + n)

/-- Lower-case hex of a byte list (encoding/hex.EncodeToString). -/
def hexEncode (bs : List Nat) : String :=
  String.mk ((bs.map (fun b => [hexDigit (b / 16), hexDigit (b % 16)])).flatten)

/-- `hex(SHA-256(bytes))`, the hash format stored in connection configs. -/
def sha256Hex (msg : List Nat) : String := hexEncode (sha256 msg)

/-! ## Gateway data model (gateway.go) -/

/-- `ConnectionConfig`: one MCP connection received from the API.
`prevKeyExpiry` embeds the result of `time.Parse(time.RFC3339, PrevKeyExpiry)`:
`none` when the field is the empty string or fails to parse. -/
structure ConnectionConfig where
  id : String
  slug : String
  domain : String
  profile : String
  apiKeyHash : String
  prevKeyHash : String
  prevKeyExpiry : Option Int
  enabled : Bool
  envVars : List (String × String)
  rateLimit : Int
  maxConcurrency : Int
  deriving DecidableEq, Repr

/-- `GatewayConfig`: received from the API sync endpoint. -/
structure GatewayConfig where
  serverID : String
  gatewayID : String
  pepper : List Nat
  connections : List ConnectionConfig
  version : Int
  deriving DecidableEq, Repr

/-- A live `Connection`: its config plus live state. The `mcp.Handler` is
embedded by the data it holds: the profile it was built from and its current
environment snapshot. `requests` is the sliding rate window (timestamps);
`sessions` is the Go `int32` active-session counter. -/
structure Connection where
  config : ConnectionConfig
  handlerProfile : String
  handlerEnvVars : List (String × String)
  requests : List Int
  sessions : Int
  deriving DecidableEq, Repr

/-- Per-tenant `Metrics`. -/
structure Metrics where
  requestCount : Int
  errorCount : Int
  authFailures : Int
  latencies : List Int
  lastRequestAt : Option Int
  deriving DecidableEq, Repr

def Metrics.zero : Metrics := ⟨0, 0, 0, [], none⟩

/-- `Gateway` state: Go maps keyed by domain (connections) and connection id
(metrics) are embedded as association lists, last-written entry first looked up
via `alistLookup`/`alistInsert` below. -/
structure Gateway where
  connections : List (String × Connection)
  pepper : List Nat
  version : Int
  gatewayID : String
  serverID : String
  metrics : List (String × Metrics)
  deriving DecidableEq, Repr

/-- Lookup in an association list (embedding of Go map indexing). -/
def alistLookup {α : Type} (l : List (String × α)) (k : String) : Option α :=
  match l with
  | [] => none
  | (k', v) :: rest => if k' = k then some v else alistLookup rest k

/-- Overwriting insert into an association list (embedding of Go map assignment). -/
def alistInsert {α : Type} (l : List (String × α)) (k : String) (v : α) : List (String × α) :=
  match l with
  | [] => [(k, v)]
  | (k', v') :: rest => if k' = k then (k, v) :: rest else (k', v') :: alistInsert rest k v

/-! ## Credential verifier (`Gateway.VerifyAPIKey`) -/

/-- `VerifyAPIKey`: hash `SHA-256(pepper + key)` in hex; accept on the primary
hash, or on the previous hash inside its rotation grace window (`now` is
`time.Now()`). The `subtle.ConstantTimeCompare(a, b) == 1` test is string
equality of the two hex strings. -/
def verifyAPIKey (g : Gateway) (conn : Connection) (apiKey : List Nat) (now : Int) : Bool :=
  let computed := sha256Hex (g.pepper ++ apiKey)
  if computed = conn.config.apiKeyHash then
    true
  else if conn.config.prevKeyHash ≠ "" then
    match conn.config.prevKeyExpiry with
    | some expiry =>
      if now < expiry then decide (computed = conn.config.prevKeyHash) else false
    | none => false
  else
    false

/-! ## Rate limiter (`Gateway.CheckRateLimit`) -/

/-- The expiry-removal loop of `CheckRateLimit`:
`valid := requests[:0]; for _, t := range requests { if t.After(windowStart) { valid = append(valid, t) } }`. -/
def dropExpiredLoop (windowStart : Int) : List Int → List Int → List Int
  | [], valid => valid
  | t :: rest, valid =>
    if windowStart < t then dropExpiredLoop windowStart rest (valid ++ [t])
    else dropExpiredLoop windowStart rest valid

def dropExpired (windowStart : Int) (requests : List Int) : List Int :=
  dropExpiredLoop windowStart requests []

/-- `CheckRateLimit` on a connection whose configured `RateLimit` is
`cfgLimit` and whose current window is `requests`; `now` is `time.Now()` and
`windowStart = now.Add(-time.Minute)`. Returns the admission decision and the
connection's new window. -/
def checkRateLimit (cfgLimit : Int) (requests : List Int) (now : Int) : Bool × List Int :=
  let limit := if cfgLimit ≤ 0 then 60 else cfgLimit
  let windowStart := now - 60
  let valid := dropExpired windowStart requests
  if limit ≤ (valid.length : Int) then (false, valid)
  else (true, valid ++ [now])

/-- A sequence of `CheckRateLimit` decisions at the given instants, threading
the connection's window through. -/
def runLimiter (cfgLimit : Int) (requests : List Int) : List Int → List Bool
  | [] => []
  | t :: ts =>
    let r := checkRateLimit cfgLimit requests t
    r.1 :: runLimiter cfgLimit r.2 ts

/-! ## Session counter (`Gateway.IncrementSessions` / `Gateway.DecrementSessions`)

`Connection.sessions` is a Go `int32`; `sessions++` performs wrapping 32-bit
arithmetic, embedded by `wrap32i`. The guarded decrement cannot overflow. -/

/-- Two's-complement wrap of an integer into `[-2^31, 2^31)`. -/
def wrap32i (n : Int) : Int := (n + 2147483648) % 4294967296 - 2147483648

inductive SessionOp
  | inc
  | dec
  deriving DecidableEq, Repr

/-- One `IncrementSessions` (`conn.sessions++`) or `DecrementSessions`
(`if conn.sessions > 0 { conn.sessions-- }`) call. -/
def applySessionOp (s : Int) : SessionOp → Int
  | .inc => wrap32i (s + 1)
  | .dec => if 0 < s then s - 1 else s

def applySessionOps (s : Int) (ops : List SessionOp) : Int :=
  ops.foldl applySessionOp s

def countInc : List SessionOp → Nat
  | [] => 0
  | .inc :: rest => countInc rest + 1
  | .dec :: rest => countInc rest

/-! ## JSON-RPC protocol handler (internal/mcp)

The wire payload of one frame is embedded by what Go's two decodings of it
observe:
* `encoding/json` into `map[string]interface{}` — validity as a JSON
  object/null, and presence of the `"id"` key (`mapDecodeHasId`);
* `encoding/json` into the `JSONRPCRequest` struct (`structDecode`).
`Body.undecodable` covers invalid JSON and valid JSON that is not an object
(array/string/number/bool): both decodings fail on it. `Body.nullBody` is the
JSON literal `null`, which both decodings accept as zero values.
`params` is embedded by its decode results: `asInit` is the
`InitializeParams.ProtocolVersion` field when the params decode as
`InitializeParams` (the empty string when the field is absent, exactly as in
Go), `asToolCall` is the `(Name, Arguments)` pair when they decode as
`ToolCallParams`. The profile is the abstract collaborator of the spec:
an identifier, tool descriptors, and a call operation. -/

inductive JsonId
  | num (n : Int)
  | str (s : String)
  deriving DecidableEq, Repr

structure ToolDef where
  name : String
  description : String
  inputSchema : List (String × String)
  deriving DecidableEq, Repr

structure ParamsView where
  asInit : Option String
  asToolCall : Option (String × List (String × String))
  deriving DecidableEq, Repr

structure Frame where
  jsonrpc : String
  id : Option JsonId
  method : String
  params : Option ParamsView
  deriving DecidableEq, Repr

inductive Body
  | undecodable
  | nullBody
  | object (hasId : Bool) (frame : Option Frame)
  deriving DecidableEq, Repr

structure Profile where
  id : String
  tools : List ToolDef
  callTool : String → List (String × String) → List (String × String) → Except String String

structure JsonRpcError where
  code : Int
  message : String
  deriving DecidableEq, Repr

structure ContentBlock where
  type : String
  text : String
  deriving DecidableEq, Repr

structure InitializeResult where
  protocolVersion : String
  capabilitiesTools : Bool
  serverName : String
  serverVersion : String
  deriving DecidableEq, Repr

inductive ResultVal
  | emptyObj
  | initResult (r : InitializeResult)
  | toolsList (tools : List ToolDef)
  | toolCall (content : List ContentBlock) (isError : Bool)
  deriving DecidableEq, Repr

structure JsonRpcResponse where
  jsonrpc : String
  id : Option JsonId
  result : Option ResultVal
  error : Option JsonRpcError
  deriving DecidableEq, Repr

def protocolVersion : String := "2024-11-05"

def parseErrorCode : Int := -32700

def invalidRequestCode : Int := -32600

def methodNotFoundCode : Int := -32601

def invalidParamsCode : Int := -32602

/-- `json.Unmarshal(raw, &req)` into the `JSONRPCRequest` struct. -/
def structDecode : Body → Option Frame
  | .undecodable => none
  | .nullBody => some ⟨"", none, "", none⟩
  | .object _ f => f

/-- `json.Unmarshal(body, &rawMsg)` into `map[string]interface{}` followed by
the `rawMsg["id"]` presence test; `none` when the unmarshal fails. -/
def mapDecodeHasId : Body → Option Bool
  | .undecodable => none
  | .nullBody => some false
  | .object hasId _ => some hasId

/-- `Handler.handleInitialize`. -/
def handleInitialize (req : Frame) : JsonRpcResponse :=
  let ok : JsonRpcResponse :=
    ⟨"2.0", req.id,
     some (.initResult ⟨protocolVersion, true, "dublyo-mcp-gateway", "1.0.0"⟩), none⟩
  match req.params with
  | some p =>
    match p.asInit with
    | some pv =>
      if pv ≠ "" ∧ pv ≠ protocolVersion then
        ⟨"2.0", req.id, none,
         some ⟨invalidParamsCode,
               "Unsupported protocol version: " ++ pv ++ ". Supported: " ++ protocolVersion⟩⟩
      else ok
    | none => ok
  | none => ok

/-- `Handler.handleToolsList`. -/
def handleToolsList (p : Profile) (req : Frame) : JsonRpcResponse :=
  ⟨"2.0", req.id, some (.toolsList p.tools), none⟩

/-- `Handler.handleToolsCall`. A `nil` `req.Params` marshals to `null`, which
unmarshals into the zero `ToolCallParams`. -/
def handleToolsCall (p : Profile) (env : List (String × String)) (req : Frame) : JsonRpcResponse :=
  let tc : Option (String × List (String × String)) :=
    match req.params with
    | none => some ("", [])
    | some pv => pv.asToolCall
  match tc with
  | none => ⟨"2.0", req.id, none, some ⟨invalidParamsCode, "Invalid tool call params"⟩⟩
  | some (name, args) =>
    match p.callTool name args env with
    | .error e => ⟨"2.0", req.id, some (.toolCall [⟨"text", "Error: " ++ e⟩] true), none⟩
    | .ok r => ⟨"2.0", req.id, some (.toolCall [⟨"text", r⟩] false), none⟩

/-- `Handler.HandleMessage`: dispatch a raw frame; `none` is a Go `nil`
response (notification, nothing to send). -/
def handleMessage (p : Profile) (env : List (String × String)) (b : Body) :
    Option JsonRpcResponse :=
  match structDecode b with
  | none => some ⟨"2.0", none, none, some ⟨parseErrorCode, "Parse error"⟩⟩
  | some req =>
    if req.jsonrpc ≠ "2.0" then
      some ⟨"2.0", req.id, none, some ⟨invalidRequestCode, "Invalid JSON-RPC version"⟩⟩
    else if req.method = "initialize" then some (handleInitialize req)
    else if req.method = "initialized" then none
    else if req.method = "ping" then some ⟨"2.0", req.id, some .emptyObj, none⟩
    else if req.method = "tools/list" then some (handleToolsList p req)
    else if req.method = "tools/call" then some (handleToolsCall p env req)
    else if req.method = "notifications/cancelled" then none
    else some ⟨"2.0", req.id, none, some ⟨methodNotFoundCode, "Method not found: " ++ req.method⟩⟩

/-! ## Transport layer (internal/server)

A request body is embedded as the sequence of `r.Body.Read(buf)` results the
handler's read loop observes: pairs of the returned chunk (`buf[:n]`, at most
4096 bytes from the 4 KiB buffer, possibly empty) and whether that call
returned a non-nil error. Per the `io.Reader` contract a read may return data
together with the error. Exhausting the list stands for a final empty
end-of-stream read. `decode` is `encoding/json`'s view of the accumulated
bytes. Metrics recording, which does not affect the response, is modelled
separately in the gateway section. -/

/-- The shared body-read loop of `handleStreamableHTTP` and
`handleSSEMessage`: append each chunk, stop on error, answer 413 (`none`)
when the accumulated body exceeds the cap after an error-free read. -/
def readBody (cap : Nat) : List (List Nat × Bool) → List Nat → Option (List Nat)
  | [], body => some body
  | (chunk, isErr) :: rest, body =>
    let body2 := body ++ chunk
    if isErr then some body2
    else if cap < body2.length then none
    else readBody cap rest body2

/-- The 1 MiB body cap (`1024*1024`). -/
def bodyLimit : Nat := 1048576

inductive StreamableResult
  | tooLarge
  | accepted
  | ok (sessionId : String) (resp : JsonRpcResponse)
  deriving DecidableEq, Repr

/-- `handleStreamableHTTP` after authentication and body read: the
notification short-circuit (`id` key absent in the decoded object map), then
the protocol handler; `.ok` carries the `mcp-session-id` header value and the
HTTP-200 response body. `freshId` is the `generateSessionID()` result used
when the client sent no `mcp-session-id` header (`clientSessionId = ""`). -/
def streamablePost (p : Profile) (env : List (String × String)) (b : Body)
    (clientSessionId freshId : String) : StreamableResult :=
  match mapDecodeHasId b with
  | some false => .accepted
  | _ =>
    match handleMessage p env b with
    | none => .accepted
    | some resp =>
      let sid := if clientSessionId = "" then freshId else clientSessionId
      .ok sid resp

/-- POST `/mcp` after authentication: read the body under the cap, then
process the frame. -/
def handleStreamableHTTP (p : Profile) (env : List (String × String))
    (decode : List Nat → Body) (reads : List (List Nat × Bool))
    (clientSessionId freshId : String) : StreamableResult :=
  match readBody bodyLimit reads [] with
  | none => .tooLarge
  | some bytes => streamablePost p env (decode bytes) clientSessionId freshId

/-- The non-blocking enqueue of `handleSSEMessage`: send on the
capacity-64 session channel if there is room, otherwise drop. -/
def sidecarEnqueue (p : Profile) (env : List (String × String)) (b : Body)
    (buffer : List JsonRpcResponse) : List JsonRpcResponse :=
  match handleMessage p env b with
  | some resp => if buffer.length < 64 then buffer ++ [resp] else buffer
  | none => buffer

/-- POST `/message` after authentication and session lookup: read the body
under the cap, process the frame, enqueue any response; returns the HTTP
status and the session's new outbound buffer. -/
def handleSSEMessage (p : Profile) (env : List (String × String))
    (decode : List Nat → Body) (reads : List (List Nat × Bool))
    (buffer : List JsonRpcResponse) : Nat × List JsonRpcResponse :=
  match readBody bodyLimit reads [] with
  | none => (413, buffer)
  | some bytes => (202, sidecarEnqueue p env (decode bytes) buffer)

/-! ## Config application (`Gateway.ApplyConfig`)

`profileOk` embeds `profiles.Get` membership in the profile registry (an
external collaborator). The old registry `g.connections` is read while the
new map is built; the in-place mutation of reused entries is visible through
the old map only when a domain repeats inside one config, which the data
model's unique-domain invariant excludes. -/

/-- `if _, ok := g.metrics[cc.ID]; !ok { g.metrics[cc.ID] = &Metrics{} }`. -/
def ensureMetrics (ms : List (String × Metrics)) (id : String) : List (String × Metrics) :=
  match alistLookup ms id with
  | some _ => ms
  | none => alistInsert ms id Metrics.zero

/-- The per-connection body of `ApplyConfig`'s loop: reuse the existing
connection when the domain is live with the same profile, otherwise build a
fresh one; `none` when the profile is unknown (the connection is skipped). -/
def reuseOrCreate (g : Gateway) (profileOk : String → Bool)
    (newConns : List (String × Connection)) (cc : ConnectionConfig) :
    Option (List (String × Connection)) :=
  match alistLookup g.connections cc.domain with
  | some existing =>
    if existing.config.profile = cc.profile then
      some (alistInsert newConns cc.domain
        { existing with config := cc, handlerEnvVars := cc.envVars })
    else if profileOk cc.profile then
      some (alistInsert newConns cc.domain ⟨cc, cc.profile, cc.envVars, [], 0⟩)
    else none
  | none =>
    if profileOk cc.profile then
      some (alistInsert newConns cc.domain ⟨cc, cc.profile, cc.envVars, [], 0⟩)
    else none

/-- `ApplyConfig`'s loop over `cfg.Connections`, threading the new connection
map and the metrics map. -/
def applyConfigFold (g : Gateway) (profileOk : String → Bool) :
    List ConnectionConfig → List (String × Connection) → List (String × Metrics) →
    List (String × Connection) × List (String × Metrics)
  | [], newConns, ms => (newConns, ms)
  | cc :: rest, newConns, ms =>
    if cc.enabled then
      match reuseOrCreate g profileOk newConns cc with
      | some newConns2 => applyConfigFold g profileOk rest newConns2 (ensureMetrics ms cc.id)
      | none => applyConfigFold g profileOk rest newConns ms
    else
      applyConfigFold g profileOk rest newConns ms

/-- `Gateway.ApplyConfig`. -/
def applyConfig (profileOk : String → Bool) (g : Gateway) (cfg : GatewayConfig) : Gateway :=
  let p := applyConfigFold g profileOk cfg.connections [] g.metrics
  { connections := p.1, pepper := cfg.pepper, version := cfg.version,
    gatewayID := cfg.gatewayID, serverID := cfg.serverID, metrics := p.2 }

/-! ## Config reconciler (`Poller.syncConfig`) -/

/-- The decoded sync body `{success, data}`. -/
structure SyncBody where
  success : Bool
  data : GatewayConfig
  deriving DecidableEq, Repr

/-- One control-plane response as the poller observes it: the HTTP status,
the `X-Gateway-Token` header (`none` when absent or empty), and the body
(`none` when reading or JSON-decoding it fails). -/
structure SyncHTTPResponse where
  status : Nat
  newToken : Option String
  body : Option SyncBody
  deriving DecidableEq, Repr

structure PollerState where
  gateway : Gateway
  token : String
  failures : Int
  deriving DecidableEq, Repr

/-- One `syncConfig` tick; `resp = none` is a bare transport failure of
`httpClient.Do`. -/
def syncConfig (profileOk : String → Bool) (st : PollerState)
    (resp : Option SyncHTTPResponse) : PollerState :=
  match resp with
  | none => { st with failures := st.failures + 1 }
  | some r =>
    let st1 :=
      match r.newToken with
      | some t => { st with token := t }
      | none => st
    if r.status = 304 then
      { st1 with failures := 0 }
    else if r.status = 200 then
      let st2 := { st1 with failures := 0 }
      match r.body with
      | none => st2
      | some b =>
        if b.success then { st2 with gateway := applyConfig profileOk st2.gateway b.data }
        else st2
    else if r.status = 401 ∨ r.status = 403 then
      { st1 with failures := st1.failures + 1 }
    else
      { st1 with failures := st1.failures + 1 }

/-! ## Metrics aggregation (`Gateway.CollectAndResetMetrics`) -/

structure MetricsReport where
  connectionID : String
  requestCount : Int
  errorCount : Int
  authFailures : Int
  p95LatencyMs : Int
  activeSessions : Int
  lastRequestAt : Option Int
  deriving DecidableEq, Repr

/-- The inner pass of the nested-loop sort in `CollectAndResetMetrics`:
given `sorted[i]` and `sorted[i+1:]`, swap whenever `sorted[i] > sorted[j]`,
returning the final `sorted[i]` and the updated tail. -/
def innerPass (x : Int) : List Int → Int × List Int
  | [] => (x, [])
  | y :: ys =>
    if x > y then
      let p := innerPass y ys
      (p.1, x :: p.2)
    else
      let p := innerPass x ys
      (p.1, y :: p.2)

/-- The full nested-loop sort, run with fuel; `innerPass` preserves length, so
fuel `l.length` always suffices. -/
def selSortFuel : Nat → List Int → List Int
  | _, [] => []
  | 0, _ :: _ => []
  | n + 1, x :: xs =>
    let p := innerPass x xs
    p.1 :: selSortFuel n p.2

/-- The in-place `for i { for j := i+1 { if sorted[i] > sorted[j] { swap } } }`
sort of the latency copy. -/
def selSort (l : List Int) : List Int := selSortFuel l.length l

/-- The P95 computation of `CollectAndResetMetrics`. Latency samples are
embedded as `Int` milliseconds (the selection logic is purely
order-theoretic). The index `int(float64(n) * 0.95)` is embedded as
`n * 19 / 20`: for every ring size the program maintains (`n ≤ 100`; the ring
is trimmed to 100 by `RecordRequest`) the IEEE-754 double evaluation truncates
to exactly that value. -/
def computeP95 (lats : List Int) : Int :=
  if 0 < lats.length then
    let sorted := selSort lats
    let idx0 := lats.length * 19 / 20
    let idx := if lats.length ≤ idx0 then lats.length - 1 else idx0
    sorted.getD idx 0
  else 0

/-- The `for _, conn := range g.connections { if conn.Config.ID == connID }`
scan for the active-session sample. -/
def findActiveSessions (conns : List (String × Connection)) (connID : String) : Int :=
  match conns with
  | [] => 0
  | (_, c) :: rest => if c.config.id = connID then c.sessions else findActiveSessions rest connID

/-- The loop of `CollectAndResetMetrics` over the metrics map: skip tenants
with all-zero deltas; otherwise emit a report and reset the deltas and the
latency ring. -/
def collectLoop (conns : List (String × Connection)) :
    List (String × Metrics) → List MetricsReport × List (String × Metrics)
  | [] => ([], [])
  | (connID, m) :: rest =>
    let p := collectLoop conns rest
    if m.requestCount = 0 ∧ m.errorCount = 0 ∧ m.authFailures = 0 then
      (p.1, (connID, m) :: p.2)
    else
      let report : MetricsReport :=
        ⟨connID, m.requestCount, m.errorCount, m.authFailures,
         computeP95 m.latencies, findActiveSessions conns connID, m.lastRequestAt⟩
      (report :: p.1,
       (connID, { m with requestCount := 0, errorCount := 0, authFailures := 0,
                         latencies := [] }) :: p.2)

/-- `Gateway.CollectAndResetMetrics`: the reports and the gateway with reset
deltas. -/
def collectAndResetMetrics (g : Gateway) : List MetricsReport × Gateway :=
  let p := collectLoop g.connections g.metrics
  (p.1, { g with metrics := p.2 })

/-! ## Concrete instances used by closed witness and counterexample statements -/

/-- A concrete profile instance. -/
def someProfile : Profile := ⟨"time", [], fun _ _ _ => .ok ""⟩

def gwEmpty : Gateway := ⟨[], [], 0, "g", "s", []⟩

def stEx : PollerState := ⟨gwEmpty, "tok", 0⟩

def ccEx : ConnectionConfig :=
  ⟨"id1", "slug", "a.example", "time", "hash", "", none, true, [("K", "V2")], 5, 10⟩

def connEx : Connection :=
  ⟨⟨"id1", "slug", "a.example", "time", "hash", "", none, true, [("K", "V1")], 5, 10⟩,
   "time", [("K", "V1")], [100], 2⟩

def gEx2 : Gateway :=
  ⟨[("a.example", connEx)], [1, 2], 1, "g", "s", [("id1", ⟨3, 0, 0, [7], none⟩)]⟩

def cfgEx : GatewayConfig := ⟨"s", "g", [9], [ccEx], 2⟩

/-- Total number of bytes in a chunk sequence. -/
def totalLen : List (List Nat) → Nat
  | [] => 0
  | c :: rest => c.length + totalLen rest

/-- A read sequence of 256 full 4096-byte buffers followed by one final byte
returned together with the end-of-stream error: 1048577 bytes in total. -/
def bigReads : List (List Nat × Bool) :=
  List.replicate 256 (List.replicate 4096 0, false) ++ [([0], true)]

/-- The 1048577-byte body that `bigReads` delivers. -/
def oversizedBody : List Nat := (List.replicate 256 (List.replicate 4096 0)).flatten ++ [0]

def mEx : Metrics := ⟨1, 0, 0, [5, 1, 3], none⟩

def gEx3 : Gateway := ⟨[], [], 0, "g", "s", [("c1", mEx)]⟩

/-! ## Theorems -/

/-- FIPS 180-4 test vector: the embedded SHA-256 agrees with the reference
digest of `"abc"`. -/
example : sha256Hex [97, 98, 99] =
    "ba7816bf8f01cfea414140de5dae2223b00361a396177a9cb410ff61f20015ad" := by
  decide

/-- Claim C1: `VerifyAPIKey` accepts exactly when the peppered hash of the
presented credential equals the connection's primary hash, or when the
connection has a non-empty previous-hash entry whose expiry lies strictly in
the future (`now < expiry`) and the hash equals that previous hash; in every
other case — including at or after the exact expiry instant — it rejects. -/
theorem verifyAPIKey_accepts_iff (g : Gateway) (conn : Connection)
    (apiKey : List Nat) (now : Int) :
    verifyAPIKey g conn apiKey now = true ↔
      (sha256Hex (g.pepper ++ apiKey) = conn.config.apiKeyHash ∨
       (conn.config.prevKeyHash ≠ "" ∧
        ∃ e, conn.config.prevKeyExpiry = some e ∧ now < e ∧
          sha256Hex (g.pepper ++ apiKey) = conn.config.prevKeyHash)) := by
  unfold verifyAPIKey
  by_cases h1 : sha256Hex (g.pepper ++ apiKey) = conn.config.apiKeyHash
  · simp [h1]
  · by_cases h2 : conn.config.prevKeyHash = ""
    · simp [h1, h2]
    · cases hx : conn.config.prevKeyExpiry with
      | none => simp [h1, h2, hx]
      | some e =>
        by_cases h3 : now < e
        · simp [h1, h2, hx, h3]
        · simp [h1, h2, hx, h3]

theorem dropExpiredLoop_eq (ws : Int) (l acc : List Int) :
    dropExpiredLoop ws l acc = acc ++ l.filter (fun t => ws < t) := by
  induction l generalizing acc with
  | nil => simp [dropExpiredLoop]
  | cons t rest ih =>
    by_cases h : ws < t
    · simp [dropExpiredLoop, h, ih, List.filter_cons]
    · simp [dropExpiredLoop, h, ih, List.filter_cons]

theorem dropExpired_eq_filter (ws : Int) (l : List Int) :
    dropExpired ws l = l.filter (fun t => ws < t) := by
  simp [dropExpired, dropExpiredLoop_eq]

/-- Auxiliary for claim C2: starting from a window `w` whose entries are all in
scope for every upcoming instant, a run of one more than `N - w.length`
pairwise-fresh requests admits until the window holds `N` entries and rejects
the last request. -/
theorem runLimiter_fills_window (N : Nat) (w ts : List Int)
    (hN : 0 < N)
    (hw : ∀ t ∈ ts, ∀ x ∈ w, t - 60 < x)
    (hts : ∀ t ∈ ts, ∀ s ∈ ts, t - 60 < s)
    (hlen : w.length + ts.length = N + 1)
    (hwle : w.length ≤ N) :
    runLimiter (N : Int) w ts = List.replicate (N - w.length) true ++ [false] := by
  induction ts generalizing w with
  | nil => simp at hlen; omega
  | cons t ts ih =>
    have hlen1 : w.length + ts.length + 1 = N + 1 := by
      have := hlen
      simp only [List.length_cons] at this
      omega
    have hvalid : dropExpired (t - 60) w = w := by
      rw [dropExpired_eq_filter]
      apply List.filter_eq_self.mpr
      intro x hx
      simpa using hw t (by simp) x hx
    rcases Nat.lt_or_ge w.length N with hlt | hge
    · have hdec : checkRateLimit (N : Int) w t = (true, w ++ [t]) := by
        simp only [checkRateLimit, hvalid]
        rw [if_neg (by omega : ¬ ((N : Int) ≤ 0)),
          if_neg (by omega : ¬ ((N : Int) ≤ (w.length : Int)))]
      have hw' : ∀ u ∈ ts, ∀ x ∈ w ++ [t], u - 60 < x := by
        intro u hu x hx
        rcases List.mem_append.mp hx with hxw | hxt
        · exact hw u (List.mem_cons_of_mem _ hu) x hxw
        · have : x = t := by simpa using hxt
          subst this
          exact hts u (List.mem_cons_of_mem _ hu) x (List.mem_cons_self _ _)
      have hts' : ∀ u ∈ ts, ∀ s ∈ ts, u - 60 < s := by
        intro u hu s hs
        exact hts u (List.mem_cons_of_mem _ hu) s (List.mem_cons_of_mem _ hs)
      have hsplit : N - w.length = (N - (w ++ [t]).length) + 1 := by
        simp only [List.length_append, List.length_singleton]
        omega
      rw [runLimiter]
      simp only [hdec]
      rw [ih (w ++ [t]) hw' hts' (by simp; omega) (by simp; omega)]
      rw [hsplit, List.replicate_succ]
      simp
    · have hlw : w.length = N := Nat.le_antisymm hwle hge
      have hts0 : ts = [] := by
        have : ts.length = 0 := by simp at hlen; omega
        exact List.eq_nil_of_length_eq_zero this
      subst hts0
      have hdec : checkRateLimit (N : Int) w t = (false, w) := by
        simp only [checkRateLimit, hvalid]
        rw [if_neg (by omega : ¬ ((N : Int) ≤ 0)),
          if_pos (by omega : (N : Int) ≤ (w.length : Int))]
      simp [runLimiter, hdec, hlw]

/-- Claim C2: each `CheckRateLimit` decision first removes from the window
every timestamp at or before `now - 60s`, then rejects exactly when the
remaining count reaches the per-minute ceiling (a configured ceiling that is
unset or `≤ 0` meaning 60) and otherwise appends `now` and admits; with
ceiling `N`, the `(N+1)`-th request arriving within one 60-second window is
rejected. -/
theorem checkRateLimit_spec :
    (∀ (cfgLimit : Int) (requests : List Int) (now : Int),
      checkRateLimit cfgLimit requests now =
        (let limit := if cfgLimit ≤ 0 then 60 else cfgLimit
         let valid := requests.filter (fun t => now - 60 < t)
         if limit ≤ (valid.length : Int) then (false, valid) else (true, valid ++ [now]))) ∧
    (∀ (N : Nat) (ts : List Int), 0 < N → ts.length = N + 1 →
      (∀ t ∈ ts, ∀ s ∈ ts, t - 60 < s) →
      runLimiter (N : Int) [] ts = List.replicate N true ++ [false]) := by
  constructor
  · intro cfg reqs now
    simp [checkRateLimit, dropExpired_eq_filter]
  · intro N ts hN hlen hts
    have h := runLimiter_fills_window N [] ts hN (by intro t ht x hx; simp at hx) hts
      (by simpa using hlen) (by simp)
    simpa using h

/-- Witness for claim C2: with ceiling 3, four requests at one instant are
decided admit, admit, admit, reject. -/
theorem checkRateLimit_spec_witness :
    runLimiter (3 : Int) [] [0, 0, 0, 0] = [true, true, true, false] := by
  have h := checkRateLimit_spec.2 3 [0, 0, 0, 0] (by decide) (by decide) (by decide)
  simpa using h

theorem wrap32i_add (a b : Int) : wrap32i (wrap32i a + b) = wrap32i (a + b) := by
  unfold wrap32i
  omega

theorem applySessionOps_inc_replicate (n : Nat) (a : Int) :
    applySessionOps (wrap32i a) (List.replicate n SessionOp.inc) = wrap32i (a + n) := by
  induction n generalizing a with
  | zero => simp [applySessionOps]
  | succ n ih =>
    rw [List.replicate_succ]
    show applySessionOps (applySessionOp (wrap32i a) .inc) (List.replicate n SessionOp.inc) = _
    rw [show applySessionOp (wrap32i a) .inc = wrap32i (a + 1) from wrap32i_add a 1]
    rw [ih (a + 1)]
    congr 1
    push_cast
    ring

/-- Counterexample for claim C10: `Connection.sessions` is a Go `int32`, so a
sequence of 2^31 `IncrementSessions` calls wraps the counter to a negative
value even though no decrement ever ran. -/
theorem sessions_nonneg_cex :
    applySessionOps 0 (List.replicate 2147483648 SessionOp.inc) < 0 := by
  have h0 : (0 : Int) = wrap32i 0 := by norm_num [wrap32i]
  rw [h0, applySessionOps_inc_replicate]
  norm_num [wrap32i]

theorem sessions_bound (ops : List SessionOp) : ∀ s : Int, 0 ≤ s →
    s + countInc ops < 2147483648 →
    0 ≤ applySessionOps s ops ∧ applySessionOps s ops ≤ s + countInc ops := by
  induction ops with
  | nil => intro s hs _; simpa [applySessionOps, countInc] using hs
  | cons op rest ih =>
    intro s hs hbound
    cases op with
    | inc =>
      have hcnt : countInc (SessionOp.inc :: rest) = countInc rest + 1 := rfl
      rw [hcnt] at hbound
      have hw : wrap32i (s + 1) = s + 1 := by
        unfold wrap32i
        omega
      have hstep : applySessionOps s (SessionOp.inc :: rest) =
          applySessionOps (s + 1) rest := by
        simp [applySessionOps, applySessionOp, List.foldl, hw]
      have h := ih (s + 1) (by omega) (by push_cast at hbound ⊢; omega)
      rw [hstep, hcnt]
      constructor
      · exact h.1
      · push_cast at h ⊢
        omega
    | dec =>
      have hcnt : countInc (SessionOp.dec :: rest) = countInc rest := rfl
      rw [hcnt] at hbound
      have hstep : applySessionOps s (SessionOp.dec :: rest) =
          applySessionOps (if 0 < s then s - 1 else s) rest := by
        simp [applySessionOps, applySessionOp, List.foldl]
      have hle : (if 0 < s then s - 1 else s) ≤ s := by split <;> omega
      have hge : 0 ≤ (if 0 < s then s - 1 else s) := by split <;> omega
      have h := ih (if 0 < s then s - 1 else s) hge (by omega)
      rw [hstep, hcnt]
      exact ⟨h.1, le_trans h.2 (by omega)⟩

/-- Claim C10 (amended): `DecrementSessions` at counter 0 leaves it at 0, and
for every interleaving-free call sequence containing fewer than 2^31
`IncrementSessions` calls the active-session counter stays non-negative. The
unamended claim fails only because the counter is a Go `int32`: 2^31
consecutive increments wrap it negative (see the counterexample). -/
theorem sessions_counter_nonneg :
    applySessionOp 0 SessionOp.dec = 0 ∧
    (∀ ops : List SessionOp, countInc ops < 2147483648 →
      0 ≤ applySessionOps 0 ops) := by
  refine ⟨by simp [applySessionOp], ?_⟩
  intro ops h
  exact (sessions_bound ops 0 le_rfl (by omega)).1

/-- Witness for claim C10: a short concrete sequence with a decrement at zero
keeps the counter non-negative. -/
theorem sessions_counter_nonneg_witness :
    0 ≤ applySessionOps 0 [SessionOp.dec, SessionOp.inc, SessionOp.dec, SessionOp.dec] :=
  sessions_counter_nonneg.2 _ (by decide)

/-- Claim C9: a POST to `/mcp` whose body does not decode as a JSON object
skips the notification short-circuit and yields HTTP 200 with a JSON-RPC
parse-error object (code -32700) and an `mcp-session-id` header that is the
client's or, when the client sent none, a freshly minted one. -/
theorem streamable_parse_error (p : Profile) (env : List (String × String))
    (clientSid freshId : String) :
    streamablePost p env .undecodable clientSid freshId =
      .ok (if clientSid = "" then freshId else clientSid)
        ⟨"2.0", none, none, some ⟨parseErrorCode, "Parse error"⟩⟩ ∧
    parseErrorCode = -32700 :=
  ⟨rfl, rfl⟩

/-- Counterexample for claim C3: a `ping` frame without an `id` key delivered
on the POST `/message` sidecar gets its response enqueued onto the session's
outbound buffer — `HandleMessage` returns a response for id-less frames of
any response-producing method, and the sidecar enqueues whatever it returns. -/
theorem notification_sidecar_cex :
    handleSSEMessage someProfile []
      (fun _ => Body.object false (some ⟨"2.0", none, "ping", none⟩)) [([], true)] [] =
      (202, [⟨"2.0", none, some .emptyObj, none⟩]) := by
  rfl

/-- Claim C3 (amended): frames without an `id` key on POST `/mcp` always get
202 with no response body; on the POST `/message` sidecar, however, the
handler's response (if any) is enqueued regardless of `id`-key presence — no
payload is enqueued exactly when the handler returns none (for well-formed
frames, the methods `initialized` and `notifications/cancelled`) or the
buffer is full. -/
theorem notification_no_response :
    (∀ (p : Profile) (env : List (String × String)) (f : Option Frame)
        (sid fresh : String),
      streamablePost p env (.object false f) sid fresh = .accepted) ∧
    (∀ (p : Profile) (env : List (String × String)) (b : Body)
        (buffer : List JsonRpcResponse),
      sidecarEnqueue p env b buffer = buffer ↔
        (handleMessage p env b = none ∨ 64 ≤ buffer.length)) ∧
    (∀ (p : Profile) (env : List (String × String)) (hasId : Bool) (req : Frame),
      req.jsonrpc = "2.0" →
      (handleMessage p env (.object hasId (some req)) = none ↔
        (req.method = "initialized" ∨ req.method = "notifications/cancelled"))) := by
  refine ⟨fun p env f sid fresh => rfl, ?_, ?_⟩
  · intro p env b buffer
    cases h : handleMessage p env b with
    | none => simp [sidecarEnqueue, h]
    | some resp =>
      by_cases hb : buffer.length < 64
      · simp only [sidecarEnqueue, h, if_pos hb]
        constructor
        · intro heq
          have := congrArg List.length heq
          simp at this
        · intro hor
          rcases hor with h1 | h1
          · cases h1
          · omega
      · simp only [sidecarEnqueue, h, if_neg hb]
        simp
        omega
  · intro p env hasId req hrpc
    simp only [handleMessage, structDecode, hrpc]
    by_cases h1 : req.method = "initialize"
    · simp [h1]
    · by_cases h2 : req.method = "initialized"
      · simp [h1, h2]
      · by_cases h3 : req.method = "ping"
        · simp [h1, h2, h3]
        · by_cases h4 : req.method = "tools/list"
          · simp [h1, h2, h3, h4]
          · by_cases h5 : req.method = "tools/call"
            · simp [h1, h2, h3, h4, h5]
            · by_cases h6 : req.method = "notifications/cancelled"
              · simp [h1, h2, h3, h4, h5, h6]
              · simp [h1, h2, h3, h4, h5, h6]

/-- Witness for claim C3 (amended): a well-formed `initialized` notification
produces no response from the protocol handler. -/
theorem notification_no_response_witness :
    handleMessage someProfile [] (.object false (some ⟨"2.0", none, "initialized", none⟩)) =
      none :=
  (notification_no_response.2.2 someProfile [] false
    ⟨"2.0", none, "initialized", none⟩ rfl).mpr (Or.inl rfl)

/-- Claim C4: for well-formed `initialize` frames, a decoded params protocol
version that is non-empty (Go's decoded struct represents an absent
`protocolVersion` field as the empty string, which the handler treats as not
carrying a version) and different from the supported one yields an
`InvalidParams` (-32602) error; otherwise the reply is a success response
echoing the request's `id` exactly, carrying the advertised protocol version,
a capabilities object announcing tools support, and a non-empty server name
and version. -/
theorem initialize_version_check (p : Profile) (env : List (String × String))
    (hasId : Bool) (oid : Option JsonId) (ps : Option ParamsView) :
    (∀ pv pw, ps = some pw → pw.asInit = some pv → pv ≠ "" → pv ≠ protocolVersion →
      handleMessage p env (.object hasId (some ⟨"2.0", oid, "initialize", ps⟩)) =
        some ⟨"2.0", oid, none,
          some ⟨invalidParamsCode,
                "Unsupported protocol version: " ++ pv ++ ". Supported: " ++ protocolVersion⟩⟩) ∧
    ((∀ pv pw, ps = some pw → pw.asInit = some pv → pv ≠ "" → pv = protocolVersion) →
      handleMessage p env (.object hasId (some ⟨"2.0", oid, "initialize", ps⟩)) =
        some ⟨"2.0", oid,
          some (.initResult ⟨protocolVersion, true, "dublyo-mcp-gateway", "1.0.0"⟩), none⟩) ∧
    invalidParamsCode = -32602 ∧
    ("dublyo-mcp-gateway" : String) ≠ "" ∧ ("1.0.0" : String) ≠ "" := by
  refine ⟨?_, ?_, rfl, by decide, by decide⟩
  · intro pv pw hps hpv hne hneq
    subst hps
    simp only [handleMessage, structDecode]
    norm_num
    simp [handleInitialize, hpv, hne, hneq]
  · intro hall
    simp only [handleMessage, structDecode]
    norm_num
    cases hps : ps with
    | none => simp [handleInitialize, hps]
    | some pw =>
      cases hpv : pw.asInit with
      | none => simp [handleInitialize, hps, hpv]
      | some pv =>
        by_cases hne : pv = ""
        · simp [handleInitialize, hpv, hne]
        · have := hall pv pw hps hpv hne
          simp [handleInitialize, hpv, hne, this]

/-- Witness for claim C4: scenario S1 — an `initialize` frame with `id = 1`
and the advertised protocol version receives the success response echoing
`id = 1`. -/
theorem initialize_version_check_witness :
    handleMessage someProfile []
      (.object true (some ⟨"2.0", some (.num 1), "initialize",
        some ⟨some "2024-11-05", none⟩⟩)) =
      some ⟨"2.0", some (.num 1),
        some (.initResult ⟨"2024-11-05", true, "dublyo-mcp-gateway", "1.0.0"⟩), none⟩ := by
  have h := (initialize_version_check someProfile [] true (some (.num 1))
      (some ⟨some "2024-11-05", none⟩)).2.1 ?_
  · simpa [protocolVersion] using h
  · intro pv pw h1 h2 _
    cases h1
    cases h2
    rfl

theorem syncConfig_gateway (pOk : String → Bool) (st : PollerState)
    (resp : Option SyncHTTPResponse) :
    (syncConfig pOk st resp).gateway =
      (match resp with
       | some r =>
         match r.body with
         | some b =>
           if r.status = 200 ∧ b.success = true then applyConfig pOk st.gateway b.data
           else st.gateway
         | none => st.gateway
       | none => st.gateway) := by
  cases resp with
  | none => rfl
  | some r =>
    obtain ⟨status, ntok, body⟩ := r
    cases ntok <;>
      (by_cases h304 : status = 304
       · subst h304
         cases body with
         | none => rfl
         | some b => simp [syncConfig]
       · by_cases h200 : status = 200
         · subst h200
           cases body with
           | none => simp [syncConfig, h304]
           | some b =>
             by_cases hs : b.success = true
             · simp [syncConfig, h304, hs]
             · simp [syncConfig, h304, hs]
         · cases body <;> simp [syncConfig, h304, h200])

/-- Claim C6: a sync tick leaves the applied configuration untouched on a
transport failure, on any status other than 200, on an unreadable or
undecodable body, and on `success=false`; the configuration is replaced only
when a 200 (hence 2xx) response decodes to `success=true`, and then by
applying exactly the decoded config. -/
theorem syncConfig_applies_only_success (pOk : String → Bool) (st : PollerState)
    (resp : Option SyncHTTPResponse) :
    ((resp = none ∨ ∃ r, resp = some r ∧
        (r.status ≠ 200 ∨ r.body = none ∨ ∃ b, r.body = some b ∧ b.success = false)) →
      (syncConfig pOk st resp).gateway = st.gateway) ∧
    ((syncConfig pOk st resp).gateway = st.gateway ∨
      ∃ r b, resp = some r ∧ r.status = 200 ∧ 200 ≤ r.status ∧ r.status < 300 ∧
        r.body = some b ∧ b.success = true ∧
        (syncConfig pOk st resp).gateway = applyConfig pOk st.gateway b.data) := by
  constructor
  · rintro (rfl | ⟨r, rfl, hcase⟩)
    · rfl
    · rw [syncConfig_gateway]
      cases hb : r.body with
      | none => simp [hb]
      | some b =>
        rcases hcase with h | h | ⟨b2, hb2, hbs⟩
        · simp [hb, h]
        · rw [h] at hb
          cases hb
        · rw [hb2] at hb
          injection hb with hbb
          subst hbb
          simp [hb2, hbs]
  · cases resp with
    | none => exact Or.inl rfl
    | some r =>
      cases hb : r.body with
      | none =>
        left
        rw [syncConfig_gateway]
        simp [hb]
      | some b =>
        by_cases h200 : r.status = 200
        · by_cases hs : b.success = true
          · right
            refine ⟨r, b, rfl, h200, by omega, by omega, hb, hs, ?_⟩
            rw [syncConfig_gateway]
            simp [hb, h200, hs]
          · left
            rw [syncConfig_gateway]
            simp [hb, hs]
        · left
          rw [syncConfig_gateway]
          simp [hb, h200]

/-- Witness for claim C6: a 500 response leaves the applied configuration
unchanged. -/
theorem syncConfig_applies_only_success_witness :
    (syncConfig (fun _ => true) stEx (some ⟨500, none, none⟩)).gateway = stEx.gateway :=
  (syncConfig_applies_only_success (fun _ => true) stEx (some ⟨500, none, none⟩)).1
    (Or.inr ⟨⟨500, none, none⟩, rfl, Or.inl (by decide)⟩)

theorem alistLookup_insert_self {α : Type} (l : List (String × α)) (k : String) (v : α) :
    alistLookup (alistInsert l k v) k = some v := by
  induction l with
  | nil => simp [alistInsert, alistLookup]
  | cons kv rest ih =>
    obtain ⟨k2, v2⟩ := kv
    by_cases h : k2 = k
    · simp [alistInsert, h, alistLookup]
    · simp [alistInsert, h, alistLookup, ih]

theorem alistLookup_insert_ne {α : Type} (l : List (String × α)) (k k2 : String) (v : α)
    (h : k2 ≠ k) : alistLookup (alistInsert l k2 v) k = alistLookup l k := by
  induction l with
  | nil => simp [alistInsert, alistLookup, h]
  | cons kv rest ih =>
    obtain ⟨k3, v3⟩ := kv
    by_cases h3 : k3 = k2
    · subst h3
      simp [alistInsert, alistLookup, h]
    · simp only [alistInsert, if_neg h3]
      by_cases h4 : k3 = k
      · simp [alistLookup, h4]
      · simp [alistLookup, h4, ih]

theorem ensureMetrics_preserves (ms : List (String × Metrics)) (id2 id : String)
    (m : Metrics) (h : alistLookup ms id = some m) :
    alistLookup (ensureMetrics ms id2) id = some m := by
  unfold ensureMetrics
  cases hl : alistLookup ms id2 with
  | some _ => exact h
  | none =>
    have hne : id2 ≠ id := by
      intro heq
      rw [heq, h] at hl
      cases hl
    rw [alistLookup_insert_ne _ _ _ _ hne]
    exact h

theorem applyConfigFold_metrics_preserves (g : Gateway) (pOk : String → Bool)
    (ccs : List ConnectionConfig) :
    ∀ (newConns : List (String × Connection)) (ms : List (String × Metrics))
      (id : String) (m : Metrics),
      alistLookup ms id = some m →
      alistLookup (applyConfigFold g pOk ccs newConns ms).2 id = some m := by
  induction ccs with
  | nil => intro newConns ms id m h; simpa [applyConfigFold] using h
  | cons cc rest ih =>
    intro newConns ms id m h
    by_cases he : cc.enabled = true
    · simp only [applyConfigFold, if_pos he]
      cases hr : reuseOrCreate g pOk newConns cc with
      | some nc => exact ih nc _ id m (ensureMetrics_preserves ms cc.id id m h)
      | none => exact ih newConns ms id m h
    · simp only [applyConfigFold, if_neg he]
      exact ih newConns ms id m h

theorem reuseOrCreate_lookup_ne (g : Gateway) (pOk : String → Bool)
    (newConns : List (String × Connection)) (cc : ConnectionConfig)
    (nc : List (String × Connection)) (d : String)
    (hr : reuseOrCreate g pOk newConns cc = some nc) (hd : cc.domain ≠ d) :
    alistLookup nc d = alistLookup newConns d := by
  unfold reuseOrCreate at hr
  cases hex : alistLookup g.connections cc.domain with
  | some existing =>
    simp only [hex] at hr
    by_cases hp : existing.config.profile = cc.profile
    · rw [if_pos hp] at hr
      injection hr with hr
      subst hr
      exact alistLookup_insert_ne _ _ _ _ hd
    · rw [if_neg hp] at hr
      by_cases hok : pOk cc.profile = true
      · rw [if_pos hok] at hr
        injection hr with hr
        subst hr
        exact alistLookup_insert_ne _ _ _ _ hd
      · rw [if_neg hok] at hr
        cases hr
  | none =>
    simp only [hex] at hr
    by_cases hok : pOk cc.profile = true
    · rw [if_pos hok] at hr
      injection hr with hr
      subst hr
      exact alistLookup_insert_ne _ _ _ _ hd
    · rw [if_neg hok] at hr
      cases hr

theorem applyConfigFold_lookup_unmentioned (g : Gateway) (pOk : String → Bool)
    (ccs : List ConnectionConfig) :
    ∀ (newConns : List (String × Connection)) (ms : List (String × Metrics)) (d : String),
      (∀ c ∈ ccs, c.domain ≠ d) →
      alistLookup (applyConfigFold g pOk ccs newConns ms).1 d = alistLookup newConns d := by
  induction ccs with
  | nil => intro newConns ms d _; simp [applyConfigFold]
  | cons cc rest ih =>
    intro newConns ms d h
    have hd : cc.domain ≠ d := h cc (by simp)
    have ht : ∀ c ∈ rest, c.domain ≠ d := fun c hc => h c (by simp [hc])
    by_cases he : cc.enabled = true
    · simp only [applyConfigFold, if_pos he]
      cases hr : reuseOrCreate g pOk newConns cc with
      | some nc =>
        rw [ih nc _ d ht]
        exact reuseOrCreate_lookup_ne g pOk newConns cc nc d hr hd
      | none => exact ih newConns ms d ht
    · simp only [applyConfigFold, if_neg he]
      exact ih newConns ms d ht

theorem applyConfigFold_reuse (g : Gateway) (pOk : String → Bool)
    (cc : ConnectionConfig) (conn : Connection) (hcc : cc.enabled = true)
    (hex : alistLookup g.connections cc.domain = some conn)
    (hprof : conn.config.profile = cc.profile) :
    ∀ (ccs : List ConnectionConfig) (newConns : List (String × Connection))
      (ms : List (String × Metrics)),
      cc ∈ ccs → (ccs.map (fun c => c.domain)).Nodup →
      alistLookup (applyConfigFold g pOk ccs newConns ms).1 cc.domain =
        some { conn with config := cc, handlerEnvVars := cc.envVars } := by
  intro ccs
  induction ccs with
  | nil => intro newConns ms hmem _; cases hmem
  | cons c rest ih =>
    intro newConns ms hmem hnodup
    rcases List.mem_cons.mp hmem with heq | hmem2
    · subst heq
      simp only [applyConfigFold, if_pos hcc]
      have hr : reuseOrCreate g pOk newConns cc =
          some (alistInsert newConns cc.domain
            { conn with config := cc, handlerEnvVars := cc.envVars }) := by
        simp only [reuseOrCreate, hex]
        rw [if_pos hprof]
      rw [hr]
      have hrest : ∀ c2 ∈ rest, c2.domain ≠ cc.domain := by
        intro c2 hc2 hdom
        have : cc.domain ∈ rest.map (fun c => c.domain) :=
          List.mem_map.mpr ⟨c2, hc2, hdom⟩
        exact (List.nodup_cons.mp hnodup).1 this
      rw [applyConfigFold_lookup_unmentioned g pOk rest _ _ cc.domain hrest]
      exact alistLookup_insert_self _ _ _
    · have hnodup2 : (rest.map (fun c => c.domain)).Nodup := (List.nodup_cons.mp hnodup).2
      by_cases he : c.enabled = true
      · simp only [applyConfigFold, if_pos he]
        cases hr : reuseOrCreate g pOk newConns c with
        | some nc => exact ih nc _ hmem2 hnodup2
        | none => exact ih newConns ms hmem2 hnodup2
      · simp only [applyConfigFold, if_neg he]
        exact ih newConns ms hmem2 hnodup2

/-- Claim C5: when a prior tenant exists for the same domain with the same
profile selector (inside a config with pairwise-distinct domains, per the
data model's unique-domain invariant), applying the config keeps the tenant's
rate window, session counter, and handler profile, and keeps every existing
metrics entry; only its configuration record and environment snapshot are
replaced. -/
theorem applyConfig_preserves_live_state (profileOk : String → Bool)
    (g : Gateway) (cfg : GatewayConfig) (cc : ConnectionConfig) (conn : Connection)
    (hmem : cc ∈ cfg.connections)
    (hnodup : (cfg.connections.map (fun c => c.domain)).Nodup)
    (henabled : cc.enabled = true)
    (hexist : alistLookup g.connections cc.domain = some conn)
    (hprof : conn.config.profile = cc.profile) :
    (alistLookup (applyConfig profileOk g cfg).connections cc.domain =
      some { config := cc, handlerProfile := conn.handlerProfile,
             handlerEnvVars := cc.envVars,
             requests := conn.requests, sessions := conn.sessions }) ∧
    (∀ (id : String) (m : Metrics), alistLookup g.metrics id = some m →
      alistLookup (applyConfig profileOk g cfg).metrics id = some m) := by
  constructor
  · exact applyConfigFold_reuse g profileOk cc conn henabled hexist hprof
      cfg.connections [] g.metrics hmem hnodup
  · intro id m h
    exact applyConfigFold_metrics_preserves g profileOk cfg.connections [] g.metrics id m h

/-- Witness for claim C5: scenario S5 — re-applying a config that only changes
env vars keeps the rate window `[100]` and session count `2` while the
handler sees the new env snapshot. -/
theorem applyConfig_preserves_live_state_witness :
    alistLookup (applyConfig (fun _ => true) gEx2 cfgEx).connections "a.example" =
      some ⟨ccEx, "time", [("K", "V2")], [100], 2⟩ :=
  (applyConfig_preserves_live_state (fun _ => true) gEx2 cfgEx ccEx connEx
      (by decide) (by decide) (by decide) (by decide) (by decide)).1

theorem readBody_cons (cap : Nat) (chunk : List Nat) (isErr : Bool)
    (rest : List (List Nat × Bool)) (body : List Nat) :
    readBody cap ((chunk, isErr) :: rest) body =
      if isErr then some (body ++ chunk)
      else if cap < (body ++ chunk).length then none
      else readBody cap rest (body ++ chunk) := rfl

theorem totalLen_cons (c : List Nat) (rest : List (List Nat)) :
    totalLen (c :: rest) = c.length + totalLen rest := rfl

theorem totalLen_nil : totalLen [] = 0 := rfl

theorem readBody_overflow (cap : Nat) : ∀ (chunks : List (List Nat)) (acc : List Nat),
    acc.length ≤ cap → cap < acc.length + totalLen chunks →
    readBody cap (chunks.map (fun c => (c, false)) ++ [([], true)]) acc = none := by
  intro chunks
  induction chunks with
  | nil =>
    intro acc h1 h2
    rw [totalLen_nil] at h2
    omega
  | cons c rest ih =>
    intro acc h1 h2
    rw [totalLen_cons] at h2
    rw [List.map_cons, List.cons_append, readBody_cons, if_neg Bool.false_ne_true]
    by_cases hover : cap < (acc ++ c).length
    · rw [if_pos hover]
    · rw [if_neg hover]
      have hle : (acc ++ c).length ≤ cap := Nat.le_of_not_lt hover
      exact ih (acc ++ c) hle (by simp only [List.length_append]; omega)

theorem readBody_chunks_ok (cap : Nat) (c d : List Nat) : ∀ (m : Nat) (acc : List Nat),
    acc.length + m * c.length ≤ cap →
    readBody cap (List.replicate m (c, false) ++ [(d, true)]) acc =
      some (acc ++ (List.replicate m c).flatten ++ d) := by
  intro m
  induction m with
  | zero =>
    intro acc h
    rw [List.replicate_zero, List.nil_append, readBody_cons, if_pos rfl,
      List.replicate_zero, List.flatten_nil, List.append_nil]
  | succ m ih =>
    intro acc h
    have hmul : (m + 1) * c.length = m * c.length + c.length := by ring
    have hle : ¬ cap < (acc ++ c).length := by
      simp only [List.length_append]
      omega
    rw [List.replicate_succ, List.cons_append, readBody_cons, if_neg Bool.false_ne_true,
      if_neg hle, ih (acc ++ c) (by simp only [List.length_append]; omega),
      List.replicate_succ, List.flatten_cons]
    simp [List.append_assoc]

/-- Claim C7 (amended): on both JSON-RPC entry points, when the reads that
carry data report no error (the end-of-stream error arrives on its own empty
read), a body strictly larger than 1 MiB makes the handler respond 413
without invoking the protocol handler. The unamended claim fails when the
read that pushes the body over the cap returns its bytes together with the
error, which the `io.Reader` contract permits: the loop then breaks before
the size check and the oversized frame is processed (see the
counterexample). -/
theorem body_cap (p : Profile) (env : List (String × String)) (decode : List Nat → Body)
    (chunks : List (List Nat)) (sid fresh : String) (buffer : List JsonRpcResponse)
    (h : bodyLimit < totalLen chunks) :
    handleStreamableHTTP p env decode
        (chunks.map (fun c => (c, false)) ++ [([], true)]) sid fresh = .tooLarge ∧
    handleSSEMessage p env decode
        (chunks.map (fun c => (c, false)) ++ [([], true)]) buffer = (413, buffer) := by
  have hr := readBody_overflow bodyLimit chunks [] (by simp) (by simpa using h)
  constructor
  · simp [handleStreamableHTTP, hr]
  · simp [handleSSEMessage, hr]

/-- Witness for claim C7 (amended): a single 1048577-byte delivery whose
end-of-stream error arrives on a separate empty read yields 413 on
POST `/mcp`. -/
theorem body_cap_witness :
    handleStreamableHTTP someProfile [] (fun _ => Body.undecodable)
      ([List.replicate 1048577 0].map (fun c => (c, false)) ++ [([], true)]) "" "s1" =
      .tooLarge :=
  (body_cap someProfile [] (fun _ => Body.undecodable) [List.replicate 1048577 0] "" "s1" []
    (by rw [totalLen_cons, List.length_replicate, totalLen_nil]; norm_num [bodyLimit])).1

theorem handleStreamableHTTP_eq (p : Profile) (env : List (String × String))
    (decode : List Nat → Body) (reads : List (List Nat × Bool)) (sid fresh : String) :
    handleStreamableHTTP p env decode reads sid fresh =
      match readBody bodyLimit reads [] with
      | none => .tooLarge
      | some bytes => streamablePost p env (decode bytes) sid fresh := rfl

theorem handleStreamableHTTP_some (p : Profile) (env : List (String × String))
    (decode : List Nat → Body) (reads : List (List Nat × Bool)) (sid fresh : String)
    (bytes : List Nat) (h : readBody bodyLimit reads [] = some bytes) :
    handleStreamableHTTP p env decode reads sid fresh =
      streamablePost p env (decode bytes) sid fresh := by
  rw [handleStreamableHTTP_eq, h]

/-- Counterexample for claim C7: 256 error-free full-buffer reads (1048576
bytes, exactly at the cap, so the size check never fires) followed by a read
that returns one final byte together with the end-of-stream error deliver a
1048577-byte body — strictly larger than 1 MiB — yet the handler does not
answer 413: it breaks out of the read loop before the size check and hands
the frame to the protocol handler, here producing the HTTP-200 parse-error
response. -/
theorem body_cap_cex :
    readBody bodyLimit bigReads [] = some oversizedBody ∧
    oversizedBody.length = 1048577 ∧
    handleStreamableHTTP someProfile [] (fun _ => Body.undecodable) bigReads "" "s1" =
      .ok "s1" ⟨"2.0", none, none, some ⟨parseErrorCode, "Parse error"⟩⟩ := by
  have h1 : readBody bodyLimit bigReads [] = some oversizedBody := by
    have h := readBody_chunks_ok bodyLimit (List.replicate 4096 0) [0] 256 []
      (by simp only [List.length_nil, List.length_replicate, bodyLimit]; norm_num)
    rw [List.nil_append] at h
    exact h
  have h3 : handleStreamableHTTP someProfile [] (fun _ => Body.undecodable) bigReads "" "s1" =
      streamablePost someProfile [] Body.undecodable "" "s1" :=
    handleStreamableHTTP_some someProfile [] (fun _ => Body.undecodable) bigReads "" "s1"
      oversizedBody h1
  have h4 : streamablePost someProfile [] Body.undecodable "" "s1" =
      .ok "s1" ⟨"2.0", none, none, some ⟨parseErrorCode, "Parse error"⟩⟩ := rfl
  refine ⟨h1, ?_, h3.trans h4⟩
  rw [oversizedBody, List.length_append, List.length_flatten, List.map_replicate,
    List.length_replicate, List.sum_replicate]
  norm_num

theorem innerPass_perm (x : Int) (l : List Int) :
    List.Perm ((innerPass x l).1 :: (innerPass x l).2) (x :: l) := by
  induction l generalizing x with
  | nil => simp [innerPass]
  | cons y ys ih =>
    by_cases h : x > y
    · simp only [innerPass, if_pos h]
      exact (List.Perm.swap x (innerPass y ys).1 (innerPass y ys).2).trans ((ih y).cons x)
    · simp only [innerPass, if_neg h]
      exact ((List.Perm.swap y (innerPass x ys).1 (innerPass x ys).2).trans
        ((ih x).cons y)).trans (List.Perm.swap x y ys)

theorem innerPass_min (x : Int) (l : List Int) :
    ∀ y ∈ x :: l, (innerPass x l).1 ≤ y := by
  induction l generalizing x with
  | nil =>
    intro y hy
    simp at hy
    simp [innerPass, hy]
  | cons z zs ih =>
    intro y hy
    rcases List.mem_cons.mp hy with hx | hy2
    · rw [hx]
      by_cases h : x > z
      · simp only [innerPass, if_pos h]
        exact le_trans (ih z z (List.mem_cons_self _ _)) (le_of_lt h)
      · simp only [innerPass, if_neg h]
        exact ih x x (List.mem_cons_self _ _)
    · rcases List.mem_cons.mp hy2 with hz | hzs
      · rw [hz]
        by_cases h : x > z
        · simp only [innerPass, if_pos h]
          exact ih z z (List.mem_cons_self _ _)
        · simp only [innerPass, if_neg h]
          exact le_trans (ih x x (List.mem_cons_self _ _)) (le_of_not_lt h)
      · by_cases h : x > z
        · simp only [innerPass, if_pos h]
          exact ih z y (List.mem_cons_of_mem _ hzs)
        · simp only [innerPass, if_neg h]
          exact ih x y (List.mem_cons_of_mem _ hzs)

theorem innerPass_length (x : Int) (l : List Int) :
    (innerPass x l).2.length = l.length := by
  have h := (innerPass_perm x l).length_eq
  simpa using h

theorem selSortFuel_perm : ∀ (fuel : Nat) (l : List Int), l.length ≤ fuel →
    List.Perm (selSortFuel fuel l) l := by
  intro fuel
  induction fuel with
  | zero =>
    intro l h
    have : l = [] := List.eq_nil_of_length_eq_zero (Nat.le_zero.mp h)
    subst this
    simp [selSortFuel]
  | succ n ih =>
    intro l h
    cases l with
    | nil => simp [selSortFuel]
    | cons x xs =>
      simp only [selSortFuel]
      have hlen : (innerPass x xs).2.length ≤ n := by
        rw [innerPass_length]
        simpa using h
      exact (((ih _ hlen).cons (innerPass x xs).1).trans (innerPass_perm x xs))

theorem selSortFuel_sorted : ∀ (fuel : Nat) (l : List Int), l.length ≤ fuel →
    (selSortFuel fuel l).Sorted (fun a b => a ≤ b) := by
  intro fuel
  induction fuel with
  | zero =>
    intro l _
    cases l <;> simp [selSortFuel]
  | succ n ih =>
    intro l h
    cases l with
    | nil => simp [selSortFuel]
    | cons x xs =>
      simp only [selSortFuel]
      have hlen : (innerPass x xs).2.length ≤ n := by
        rw [innerPass_length]
        simpa using h
      rw [List.sorted_cons]
      constructor
      · intro b hb
        have hb2 : b ∈ (innerPass x xs).2 := (selSortFuel_perm n _ hlen).subset hb
        have hb3 : b ∈ x :: xs :=
          (innerPass_perm x xs).subset (List.mem_cons_of_mem _ hb2)
        exact innerPass_min x xs b hb3
      · exact ih _ hlen

/-- The nested-loop sort of `CollectAndResetMetrics` is the ascending sort. -/
theorem selSort_eq_insertionSort (l : List Int) :
    selSort l = List.insertionSort (fun a b => a ≤ b) l :=
  List.eq_of_perm_of_sorted
    ((selSortFuel_perm l.length l le_rfl).trans (List.perm_insertionSort _ l).symm)
    (selSortFuel_sorted l.length l le_rfl)
    (List.sorted_insertionSort _ l)

theorem collectLoop_report (conns : List (String × Connection)) :
    ∀ (ms : List (String × Metrics)) (connID : String) (m : Metrics),
      alistLookup ms connID = some m →
      ¬(m.requestCount = 0 ∧ m.errorCount = 0 ∧ m.authFailures = 0) →
      ∃ r ∈ (collectLoop conns ms).1,
        r.connectionID = connID ∧ r.p95LatencyMs = computeP95 m.latencies := by
  intro ms
  induction ms with
  | nil =>
    intro cid m h
    simp [alistLookup] at h
  | cons km rest ih =>
    obtain ⟨k, m0⟩ := km
    intro cid m h hnz
    by_cases hk : k = cid
    · subst hk
      rw [alistLookup, if_pos rfl] at h
      injection h with h
      subst h
      simp only [collectLoop, if_neg hnz]
      exact ⟨_, List.mem_cons_self _ _, rfl, rfl⟩
    · rw [alistLookup, if_neg hk] at h
      obtain ⟨r, hr, h1, h2⟩ := ih cid m h hnz
      by_cases hz : m0.requestCount = 0 ∧ m0.errorCount = 0 ∧ m0.authFailures = 0
      · simp only [collectLoop, if_pos hz]
        exact ⟨r, hr, h1, h2⟩
      · simp only [collectLoop, if_neg hz]
        exact ⟨r, List.mem_cons_of_mem _ hr, h1, h2⟩

/-- Claim C8: on metrics collection, the P95 of an empty latency ring is 0;
for a non-empty ring of `n` samples it is the element at index
`min ⌊0.95·n⌋ (n-1)` of the ascending sort of a copy of the samples; and every
tenant with a non-zero delta counter gets a report whose P95 field is exactly
that value of its ring. -/
theorem collectMetrics_p95 :
    computeP95 [] = 0 ∧
    (∀ lats : List Int, lats ≠ [] →
      computeP95 lats =
        (List.insertionSort (fun a b => a ≤ b) lats).getD
          (min (lats.length * 19 / 20) (lats.length - 1)) 0) ∧
    (∀ (g : Gateway) (connID : String) (m : Metrics),
      alistLookup g.metrics connID = some m →
      ¬(m.requestCount = 0 ∧ m.errorCount = 0 ∧ m.authFailures = 0) →
      ∃ r ∈ (collectAndResetMetrics g).1,
        r.connectionID = connID ∧ r.p95LatencyMs = computeP95 m.latencies) := by
  refine ⟨rfl, ?_, ?_⟩
  · intro lats h
    have hpos : 0 < lats.length := List.length_pos.mpr h
    have hidx : lats.length * 19 / 20 < lats.length := by
      rw [Nat.div_lt_iff_lt_mul (by norm_num : (0 : Nat) < 20)]
      omega
    rw [computeP95, if_pos hpos]
    simp only
    rw [if_neg (by omega : ¬ lats.length ≤ lats.length * 19 / 20)]
    rw [Nat.min_eq_left (by omega), selSort_eq_insertionSort]
  · intro g connID m h hnz
    exact collectLoop_report g.connections g.metrics connID m h hnz

/-- Witness for claim C8: a tenant with one request and latency ring
`[5, 1, 3]` is reported with P95 = 5 (index `⌊0.95·3⌋ = 2` of `[1, 3, 5]`). -/
theorem collectMetrics_p95_witness :
    ∃ r ∈ (collectAndResetMetrics gEx3).1, r.connectionID = "c1" ∧ r.p95LatencyMs = 5 := by
  obtain ⟨r, hr, h1, h2⟩ := collectMetrics_p95.2.2 gEx3 "c1" mEx (by decide) (by decide)
  exact ⟨r, hr, h1, by rw [h2]; decide⟩

end McpGateway
